import Mathlib

/-!
Verification development for the sanction-detector screening core.

This file gives a shallow embedding, in Lean 4, of the pure computational
content of the repository's screening pipeline:

* `src/utils/validation.ts` — address / tx-hash format checks;
* `src/services/sanctionsDataService.ts` — OFAC data consolidation, the
  active filter, the TTL-guarded reload and address lookup;
* `src/services/blockchainApiService.ts` (the path-analysis half) — the
  bounded breadth-first transaction-graph walker and its risk formulas;
* `src/services/addressScreeningService.ts` — direct-match scoring, risk
  bucketing, confidence and the combination with the walker;
* `src/services/transactionScreeningService.ts` — per-transaction risk
  aggregation and confidence.

Modelling conventions: JavaScript numbers are modelled as `Nat`, `Int` or `ℚ`
(all the arithmetic proved about below is exact at these values, so rationals
are a faithful model of the doubles involved); asynchronous calls that can
fail are modelled with `Option`/`Except`, with the external indexer and the
sanctions byte source abstracted as explicit inputs; `Set` objects are
modelled as insertion-ordered duplicate-free lists; timestamps and clocks are
explicit integer parameters.  Logging and audit writes are side effects with
no influence on the values computed and are omitted.
-/

/-- Risk levels produced by the screeners (`types` module). -/
inductive RiskLevel where
  | LOW
  | MEDIUM
  | HIGH
  | CRITICAL
deriving DecidableEq, Repr, Inhabited

/-- Match types of a `SanctionMatch` (`types` module). -/
inductive MatchType where
  | DIRECT
  | INDIRECT
deriving DecidableEq, Repr, Inhabited

/-- A sanctioned entity as held in the in-memory sanctions cache
(`SanctionEntity` in the `types` module). -/
structure SanctionEntity where
  entityId : String
  name : String
  listSource : String
  addresses : List String
  aliases : List String
  lastUpdated : String
  isActive : Bool
deriving DecidableEq, Repr, Inhabited

/-- A hit linking an address to an entity (`SanctionMatch` in `types`). -/
structure SanctionMatch where
  listSource : String
  entityName : String
  entityId : String
  matchType : MatchType
  confidence : Nat
  matchedAddress : String
deriving DecidableEq, Repr, Inhabited

/-- Normalized transaction input (`TransactionInput` in `types`): the
blockchain client maps a missing prevout to `addresses = []`, `value = 0`. -/
structure TransactionInput where
  txid : String
  vout : Nat
  addresses : List String
  value : Nat
deriving DecidableEq, Repr, Inhabited

/-- Normalized transaction output (`TransactionOutput` in `types`). -/
structure TransactionOutput where
  addresses : List String
  value : Nat
  scriptPubKey : String
deriving DecidableEq, Repr, Inhabited

/-- Normalized Bitcoin transaction (`BitcoinTransaction` in `types`). -/
structure BitcoinTransaction where
  txid : String
  blockHeight : Nat
  blockTime : Nat
  inputs : List TransactionInput
  outputs : List TransactionOutput
  fee : Nat
  size : Nat
deriving DecidableEq, Repr, Inhabited

/-- A sanctioned node discovered during a walk (`TransactionPathNode`). -/
structure TransactionPathNode where
  address : String
  txid : String
  hop : Nat
  value : Nat
  timestamp : Nat
  riskContribution : Nat
deriving DecidableEq, Repr, Inhabited

/-- The walker's accumulator / result (`TransactionPathAnalysis`). -/
structure TransactionPathAnalysis where
  targetAddress : String
  maxHops : Nat
  totalNodesAnalyzed : Nat
  sanctionedNodesFound : Nat
  pathNodes : List TransactionPathNode
  riskPropagation : ℚ
deriving DecidableEq, Repr, Inhabited

/-- Screening result of one address (`ScreeningResult` in `types`); the
wall-clock `timestamp` and `processingTimeMs` fields carry no screening
content and are omitted from the model. -/
structure ScreeningResultM where
  address : String
  riskScore : ℚ
  riskLevel : RiskLevel
  sanctionMatches : List SanctionMatch
  transactionAnalysis : Option TransactionPathAnalysis
  confidence : ℚ
deriving DecidableEq, Repr, Inhabited

/-- One row of the OFAC crypto source document
(`OFACCryptoEntry` in `sanctionsDataService.ts`). -/
structure OFACCryptoEntry where
  entityId : String
  entityName : String
  entityType : String
  program : String
  cryptocurrency : String
  address : String
  remarks : String
  isActive : Bool
deriving DecidableEq, Repr, Inhabited

/-! ### Validation (`src/utils/validation.ts`)

The source validates addresses with the regular expression

  `^([13][a-km-zA-HJ-NP-Z1-9]{25,34})|^(bc1[a-z0-9]{39,59})$`

Note the alternation precedence: the expression parses as
`(^([13][...]{25,34})) | (^(bc1[...]{39,59})$)`, so the legacy/P2SH branch
is anchored at the start only — a match needs some `m ∈ [25,34]` base58
characters after the leading `1`/`3`, with the rest of the string
unconstrained — while the Bech32 branch is anchored at both ends.
`isValidBitcoinAddress` below renders exactly that semantics. -/

/-- Character class `[a-km-zA-HJ-NP-Z1-9]` of the legacy branch (the base58
alphabet). -/
def base58Char (c : Char) : Bool :=
  ('a' ≤ c ∧ c ≤ 'k') ∨ ('m' ≤ c ∧ c ≤ 'z') ∨ ('A' ≤ c ∧ c ≤ 'H') ∨
    ('J' ≤ c ∧ c ≤ 'N') ∨ ('P' ≤ c ∧ c ≤ 'Z') ∨ ('1' ≤ c ∧ c ≤ '9')

/-- Character class `[a-z0-9]` of the Bech32 branch. -/
def bech32DataChar (c : Char) : Bool :=
  ('a' ≤ c ∧ c ≤ 'z') ∨ ('0' ≤ c ∧ c ≤ '9')

/-- First regex alternative `^([13][a-km-zA-HJ-NP-Z1-9]{25,34})`: anchored at
the start, NOT at the end (the `$` of the source regex belongs to the second
alternative only). A match consumes the head `1`/`3` and then some
`m ∈ [25,34]` base58 characters; trailing characters are unconstrained. -/
def legacyBranchTest (cs : List Char) : Bool :=
  match cs with
  | [] => false
  | c :: rest =>
    (c == '1' || c == '3') &&
      (List.range' 25 10).any fun m =>
        decide (m ≤ rest.length) && (rest.take m).all base58Char

/-- Second regex alternative `^(bc1[a-z0-9]{39,59})$`: anchored at both ends,
so the whole string is `bc1` followed by 39–59 characters of `[a-z0-9]`. -/
def bech32BranchTest (cs : List Char) : Bool :=
  match cs with
  | 'b' :: 'c' :: '1' :: body =>
    decide (39 ≤ body.length) && decide (body.length ≤ 59) &&
      body.all bech32DataChar
  | _ => false

/-- `isValidBitcoinAddress` of `src/utils/validation.ts`: `regex.test`
succeeds iff either alternative matches. -/
def isValidBitcoinAddress (s : String) : Bool :=
  legacyBranchTest s.toList || bech32BranchTest s.toList

/-- Stated from the claim's words (NOT from the source), for comparison with
`isValidBitcoinAddress`: both alternatives anchored over the entire string —
`^[13][base58]{25,34}$` or `^bc1[a-z0-9]{39,59}$`. -/
def specFullPatternAddress (s : String) : Bool :=
  (match s.toList with
   | [] => false
   | c :: rest =>
     (c == '1' || c == '3') && decide (25 ≤ rest.length) &&
       decide (rest.length ≤ 34) && rest.all base58Char) ||
  bech32BranchTest s.toList

example : isValidBitcoinAddress "1AAAAAAAAAAAAAAAAAAAAAAAAA" = true := by decide
example : isValidBitcoinAddress "1AAAAAAAAAAAAAAAAAAAAAAAA" = false := by decide
example : specFullPatternAddress "1AAAAAAAAAAAAAAAAAAAAAAAAA" = true := by decide

/-! ### Sanctions data service (`src/services/sanctionsDataService.ts`) -/

/-- JavaScript `Set.add` / dedup-by-insertion-order: append the element
unless it is already present. -/
def insertStr (l : List String) (s : String) : List String :=
  if s ∈ l then l else l ++ [s]

/-- Dedup of a string list keeping the first occurrence of each element, in
order — the observable content of filling a JS `Set` and reading it back. -/
def dedupKeepFirst (l : List String) : List String :=
  l.foldl insertStr []

/-- Quote characters accepted by the alias regex class. -/
def quoteChar (c : Char) : Bool :=
  c = '\'' || c = '"'

/-- Whitespace for the alias regex `\s+`. -/
def spaceChar (c : Char) : Bool :=
  c = ' ' || c = '\t' || c = '\n' || c = '\r'

/-- The literal `a.k.a.` scanned for by `extractAliasesFromRemarks`. -/
def akaToken : List Char :=
  ['a', '.', 'k', '.', 'a', '.']

/-- Left-to-right scan rendering `extractAliasesFromRemarks`: collect every
occurrence of `a.k.a. '<NAME>'` / `a.k.a. "<NAME>"` that is followed by `;`
or the end of the string, keeping the trimmed, non-empty names.  (No claim
below depends on alias contents; this models the source regex
`/a\.k\.a\.\s+['"]([^'"]+)['"](?:;|$)/gi` as a scan.) -/
def aliasScan : List Char → List String
  | [] => []
  | c :: rest =>
    let s := c :: rest
    if s.take 6 = akaToken then
      let after := s.drop 6
      let spaces := after.takeWhile spaceChar
      let afterSpaces := after.drop spaces.length
      if 0 < spaces.length then
        match afterSpaces with
        | q :: body =>
          if quoteChar q then
            let content := body.takeWhile (fun ch => !(quoteChar ch))
            let closing := body.drop content.length
            match closing with
            | q2 :: tail =>
              let t := (String.mk content).trim
              if quoteChar q2 ∧ (tail = [] ∨ tail.head? = some ';') ∧ t ≠ "" then
                t :: aliasScan rest
              else aliasScan rest
            | [] => aliasScan rest
          else aliasScan rest
        | [] => aliasScan rest
      else aliasScan rest
    else aliasScan rest

/-- `extractAliasesFromRemarks` of `sanctionsDataService.ts`. -/
def extractAliasesFromRemarks (remarks : String) : List String :=
  aliasScan remarks.toList

/-- One step of the `entityMap` loop of `transformOFACCryptoData`: if a
consolidated entity with this `entityId` already exists, append the row's
address to it (unless already present); otherwise create a new entity from
the row.  The new entity's `isActive` (and name, aliases) comes from this
first row.  Since ids are unique in the accumulator, updating via `map` is
the list rendering of mutating the one `Map` entry. -/
def upsertOFACEntry (lastUpdated : String) (acc : List SanctionEntity)
    (entry : OFACCryptoEntry) : List SanctionEntity :=
  if acc.any fun ent => ent.entityId = entry.entityId then
    acc.map fun ent =>
      if ent.entityId = entry.entityId ∧ ¬ entry.address ∈ ent.addresses then
        { ent with addresses := ent.addresses ++ [entry.address] }
      else ent
  else
    acc ++ [{ entityId := entry.entityId, name := entry.entityName,
              listSource := "OFAC", addresses := [entry.address],
              aliases := extractAliasesFromRemarks entry.remarks,
              lastUpdated := lastUpdated, isActive := entry.isActive }]

/-- `transformOFACCryptoData`: group rows by `entityId` (insertion order,
first row wins for everything except the address union). -/
def transformOFACCryptoData (lastUpdated : String)
    (entries : List OFACCryptoEntry) : List SanctionEntity :=
  entries.foldl (upsertOFACEntry lastUpdated) []

/-- The entity set actually cached by `loadAllSanctions`: consolidation
followed by the `isActive` filter. -/
def loadActiveSanctions (lastUpdated : String)
    (entries : List OFACCryptoEntry) : List SanctionEntity :=
  (transformOFACCryptoData lastUpdated entries).filter (·.isActive)

/-- JavaScript `toLowerCase()` on the (ASCII) address data: character-wise
lowercasing. -/
def lowerString (s : String) : String :=
  String.mk (s.toList.map Char.toLower)

/-- `findSanctionsByAddress`: all cached entities whose address set contains
the queried address, both sides lowercased. -/
def findSanctionsByAddress (cache : List SanctionEntity)
    (address : String) : List SanctionEntity :=
  cache.filter fun entity =>
    entity.addresses.any fun addr => lowerString addr == lowerString address

/-- In-memory state of the `SanctionsDataService` singleton: the cache and
the epoch-milliseconds of the last (attempted) load. -/
structure SanctionsState where
  sanctionsCache : List SanctionEntity
  lastLoadTime : Int
deriving DecidableEq, Repr, Inhabited

/-- Outcome of reading the sanctions source file: `missing` is ENOENT; `ok`
carries the parsed document (its `metadata.lastUpdated` and `entities`
rows).  A non-ENOENT read or parse failure rethrows in the source and is not
needed by the claims below. -/
inductive SanctionsSourceRead where
  | missing
  | ok (lastUpdated : String) (entries : List OFACCryptoEntry)
deriving Repr, Inhabited

/-- `cacheValidityMs` of `sanctionsDataService.ts`: one hour. -/
def cacheValidityMs : Int := 1000 * 60 * 60

/-- `loadAllSanctions` as a state transition: given the current state, the
clock and the (outcome of the) source read, produce the next state together
with whether the source read was attempted at all.  The early return fires
only when the cache is fresh AND non-empty; on ENOENT the cache becomes
empty and `lastLoadTime` is still set. -/
def loadAllSanctions (st : SanctionsState) (now : Int)
    (src : SanctionsSourceRead) : SanctionsState × Bool :=
  if now - st.lastLoadTime < cacheValidityMs ∧ 0 < st.sanctionsCache.length then
    (st, false)
  else
    match src with
    | .missing => (⟨[], now⟩, true)
    | .ok lastUpdated entries => (⟨loadActiveSanctions lastUpdated entries, now⟩, true)

/-! ### Path walker (`TransactionPathAnalysisService` in
`src/services/blockchainApiService.ts` / `transactionPathAnalysisService.ts`)

The external blockchain indexer is abstracted as an `Indexer`: a map from
address to its recent txid list (`none` models a failed
`getAddressTransactions` call) and a map from txid to the normalized
transaction (`none` models a failed `getTransaction`).  Within one walk the
code's concurrency is observationally sequential: a batch's `filter` runs
before any `visitedTransactions.add`, all adds run before any result is
processed, and `Promise.all` preserves batch order, so the walk is a
deterministic function of the indexer's responses. -/

/-- The external indexer, abstracted. -/
structure Indexer where
  addressTxs : String → Option (List String)
  getTx : String → Option BitcoinTransaction

/-- Mutable state threaded through a walk: the `analysis` accumulator's
counters and nodes plus the two visited sets. -/
structure WalkState where
  totalNodesAnalyzed : Nat
  sanctionedNodesFound : Nat
  pathNodes : List TransactionPathNode
  visitedAddresses : List String
  visitedTransactions : List String
deriving DecidableEq, Repr, Inhabited

/-- `extractAddressesFromTransaction` of `BlockchainApiService`: the union of
input and output addresses, in first-seen order. -/
def extractAddressesFromTransaction (transaction : BitcoinTransaction) : List String :=
  dedupKeepFirst
    ((transaction.inputs.map (·.addresses)).flatten ++
      (transaction.outputs.map (·.addresses)).flatten)

/-- `calculateTransactionValue`: the sats of all inputs and outputs of the
transaction that carry the address. -/
def calculateTransactionValue (transaction : BitcoinTransaction)
    (address : String) : Nat :=
  ((transaction.inputs.filter (fun i => address ∈ i.addresses)).map (·.value)).sum +
    ((transaction.outputs.filter (fun o => address ∈ o.addresses)).map (·.value)).sum

/-- `calculateRiskContribution hop matchCount
  = min(100, max(0, 100 − 20·hop) + min(50, 25·matchCount))`;
`Nat` subtraction renders the `max(0, ·)`. -/
def calculateRiskContribution (hop matchCount : Nat) : Nat :=
  min 100 ((100 - hop * 20) + min 50 (matchCount * 25))

/-- The sanctions comparison performed inside the walker
(`analyzeTransaction` in the source): for each cached entity, a
CASE-SENSITIVE `entity.addresses.includes(address)` membership test —
unlike `findSanctionsByAddress`, nothing is lowercased here. -/
def sanctionMatchesForWalk (sanctions : List SanctionEntity)
    (address : String) : List SanctionMatch :=
  (sanctions.filter fun entity => address ∈ entity.addresses).map fun entity =>
    { listSource := entity.listSource, entityName := entity.name,
      entityId := entity.entityId, matchType := .DIRECT, confidence := 100,
      matchedAddress := address }

/-- The `TransactionPathNode` pushed by `analyzeTransaction` when the
address matches. -/
def mkWalkPathNode (sanctions : List SanctionEntity)
    (transaction : BitcoinTransaction) (hop : Nat)
    (address : String) : TransactionPathNode :=
  { address := address, txid := transaction.txid, hop := hop + 1,
    value := calculateTransactionValue transaction address,
    timestamp := transaction.blockTime * 1000,
    riskContribution :=
      calculateRiskContribution (hop + 1) (sanctionMatchesForWalk sanctions address).length }

/-- Body of the per-address loop of `analyzeTransaction`: skip addresses
already in `visitedAddresses`; otherwise run the (case-sensitive) sanctions
comparison and, on one or more matches, bump `sanctionedNodesFound` and
append a path node.  `visitedAddresses` is not modified. -/
def walkAddressStep (sanctions : List SanctionEntity)
    (transaction : BitcoinTransaction) (hop : Nat)
    (st : WalkState) (address : String) : WalkState :=
  if address ∈ st.visitedAddresses then st
  else if 0 < (sanctionMatchesForWalk sanctions address).length then
    { st with sanctionedNodesFound := st.sanctionedNodesFound + 1,
              pathNodes := st.pathNodes ++ [mkWalkPathNode sanctions transaction hop address] }
  else st

/-- `analyzeTransaction` of the walker: bump `totalNodesAnalyzed`, then run
the per-address loop over the transaction's addresses. -/
def analyzeTransaction (sanctions : List SanctionEntity)
    (transaction : BitcoinTransaction) (hop : Nat)
    (st0 : WalkState) : WalkState :=
  (extractAddressesFromTransaction transaction).foldl
    (walkAddressStep sanctions transaction hop)
    { st0 with totalNodesAnalyzed := st0.totalNodesAnalyzed + 1 }

/-- `chunkArray` of the source, with explicit fuel (the source's loop
`i += chunkSize` never terminates for `chunkSize = 0`, but every call site
passes a positive chunk size, for which `length` steps of fuel are exactly
the loop's iterations). -/
def chunkListGo (chunkSize : Nat) : Nat → List String → List (List String)
  | _, [] => []
  | 0, _ => []
  | fuel + 1, l => l.take chunkSize :: chunkListGo chunkSize fuel (l.drop chunkSize)

/-- `chunkArray` of the source. -/
def chunkList (l : List String) (chunkSize : Nat) : List (List String) :=
  chunkListGo chunkSize l.length l

/-- `analyzeHop`: one breadth level of the walk.  The first argument is
fuel; the recursion of the source decreases `maxHops − currentHop`, so
`fuel = maxHops − currentHop` makes this the exact semantics (when the fuel
runs out the guard `currentHop ≥ maxHops` would have returned anyway).  Per
batch: drop already-visited txids (computed against the state at batch
start, as in the source, where the `filter` runs before any `add`), mark the
rest visited, fetch them (`none` = fetch failure, logged and skipped), and
analyze each fetched transaction in order; if another hop remains, take the
first 3 unvisited addresses of the transaction, mark each visited, fetch its
5 recent txids (failure skipped) and recurse one hop deeper. -/
def analyzeHop (idx : Indexer) (sanctions : List SanctionEntity) :
    Nat → List String → Nat → Nat → WalkState → WalkState
  | 0, _, _, _, st => st
  | fuel + 1, transactionIds, currentHop, maxHops, st =>
    if maxHops ≤ currentHop ∨ transactionIds = [] then st
    else
      let batchSize := min 5 transactionIds.length
      let transactionBatches := chunkList (transactionIds.take 10) batchSize
      transactionBatches.foldl
        (fun st batch =>
          let freshTxids := batch.filter fun txid => ¬ txid ∈ st.visitedTransactions
          let st1 := { st with
            visitedTransactions := freshTxids.foldl insertStr st.visitedTransactions }
          let validTransactions := freshTxids.filterMap idx.getTx
          validTransactions.foldl
            (fun st transaction =>
              let st2 := analyzeTransaction sanctions transaction currentHop st
              if currentHop + 1 < maxHops then
                let connectedAddresses :=
                  (extractAddressesFromTransaction transaction).filter
                    fun addr => ¬ addr ∈ st2.visitedAddresses
                let nextHopAddresses := connectedAddresses.take 3
                nextHopAddresses.foldl
                  (fun st nextAddress =>
                    let st3 := { st with
                      visitedAddresses := insertStr st.visitedAddresses nextAddress }
                    match idx.addressTxs nextAddress with
                    | none => st3
                    | some nextTransactions =>
                      analyzeHop idx sanctions fuel (nextTransactions.take 5)
                        (currentHop + 1) maxHops st3)
                  st2
              else st2)
            st1)
        st

/-- `calculateRiskPropagation`: hop-decayed weighted average of the path
nodes' risk contributions plus a penalty for the number of sanctioned nodes,
rounded and capped at 100 (`0.15 = 3/20`, `0.1 = 1/10`, exactly as the
doubles of the source at every value reached here). -/
def calculateRiskPropagation (analysis : TransactionPathAnalysis) : ℚ :=
  if analysis.pathNodes = [] then 0
  else
    let hopWeight : TransactionPathNode → ℚ := fun node =>
      max (1 / 10) (1 - node.hop * (15 / 100))
    let totalWeightedRisk :=
      (analysis.pathNodes.map fun node => (node.riskContribution : ℚ) * hopWeight node).sum
    let totalWeight := (analysis.pathNodes.map hopWeight).sum
    let averageRisk := totalWeightedRisk / totalWeight
    let nodePenalty : ℚ := min 25 (analysis.sanctionedNodesFound * 5)
    ((min 100 (round (averageRisk + nodePenalty)) : ℤ) : ℚ)

/-- `analyzeTransactionPath`: seed the visited set with the target, fetch up
to 25 recent txids for it (a failure here aborts the whole walk as
`ExternalApiError`, modelled by `none`), run the hop recursion from hop 0,
and finish by computing `riskPropagation`.  The 30-minute memoization cache
only replays a previous walk's result and is not part of the value model. -/
def analyzeTransactionPath (idx : Indexer) (sanctions : List SanctionEntity)
    (targetAddress : String) (maxHops : Nat) : Option TransactionPathAnalysis :=
  match idx.addressTxs targetAddress with
  | none => none
  | some addressTransactions =>
    let st0 : WalkState := ⟨0, 0, [], [targetAddress], []⟩
    let st := analyzeHop idx sanctions maxHops (addressTransactions.take 25) 0 maxHops st0
    let analysis : TransactionPathAnalysis :=
      { targetAddress := targetAddress, maxHops := maxHops,
        totalNodesAnalyzed := st.totalNodesAnalyzed,
        sanctionedNodesFound := st.sanctionedNodesFound,
        pathNodes := st.pathNodes, riskPropagation := 0 }
    some { analysis with riskPropagation := calculateRiskPropagation analysis }

/-! ### Address screener (`src/services/addressScreeningService.ts`)

`screenAddress` is modelled as a function of the address, the `includeWalk`
flag, the outcome of the sanctions lookup
(`sanctionsDataService.findSanctionsByAddress`, which can throw if the
source read fails with a non-ENOENT error), and the outcome of the path
walker invocation.  `.error` models a thrown exception. -/

/-- `findDirectSanctionMatches`: map the looked-up entities to DIRECT
matches with confidence 100; an error of the lookup is caught and turned
into the empty match list. -/
def findDirectSanctionMatches (address : String)
    (lookup : Except Unit (List SanctionEntity)) : List SanctionMatch :=
  match lookup with
  | .error _ => []
  | .ok entities =>
    entities.map fun entity =>
      { listSource := entity.listSource, entityName := entity.name,
        entityId := entity.entityId, matchType := .DIRECT, confidence := 100,
        matchedAddress := address }

/-- `calculateDirectMatchRiskScore`: 0 with no matches; else base 60, up to
20 more for multiple matches, 15 more if any match is OFAC, capped at 80. -/
def calculateDirectMatchRiskScore (sanctionMatches : List SanctionMatch) : ℚ :=
  if sanctionMatches.length = 0 then 0
  else
    min
      (60 +
        (if 1 < sanctionMatches.length then
          min (sanctionMatches.length * 5 : ℚ) 20
         else 0) +
        (if sanctionMatches.any fun m => m.listSource == "OFAC" then 15 else 0))
      80

/-- `determineRiskLevel` of the address screener. -/
def determineRiskLevel (riskScore : ℚ) : RiskLevel :=
  if 76 ≤ riskScore then .CRITICAL
  else if 51 ≤ riskScore then .HIGH
  else if 26 ≤ riskScore then .MEDIUM
  else .LOW

/-- `calculateConfidenceScore` of the address screener: 70 (+10 for
multiple) with matches, else 30; +15 when the walk analyzed any node, +5
more beyond 10 nodes; capped at 100. -/
def calculateConfidenceScore (sanctionMatches : List SanctionMatch)
    (transactionAnalysis : Option TransactionPathAnalysis) : ℚ :=
  let fromMatches : ℚ :=
    if 0 < sanctionMatches.length then
      70 + (if 1 < sanctionMatches.length then 10 else 0)
    else 30
  let fromWalk : ℚ :=
    match transactionAnalysis with
    | some analysis =>
      if 0 < analysis.totalNodesAnalyzed then
        15 + (if 10 < analysis.totalNodesAnalyzed then 5 else 0)
      else 0
    | none => 0
  min (fromMatches + fromWalk) 100

/-- `screenAddress`: validate, look up direct matches, score them; when the
walk is requested and succeeds add `0.6 · riskPropagation` and attach the
analysis, when it fails keep the direct score and attach nothing; cap the
score at 100 and derive level and confidence.  A validation failure throws
(`.error`). -/
def screenAddress (address : String) (includeTransactionAnalysis : Bool)
    (lookup : Except Unit (List SanctionEntity))
    (walkOutcome : Except Unit TransactionPathAnalysis) :
    Except Unit ScreeningResultM :=
  if isValidBitcoinAddress address then
    let sanctionMatches := findDirectSanctionMatches address lookup
    let baseRiskScore := calculateDirectMatchRiskScore sanctionMatches
    let afterWalk : ℚ × Option TransactionPathAnalysis :=
      if includeTransactionAnalysis then
        match walkOutcome with
        | .ok analysis =>
          (baseRiskScore + analysis.riskPropagation * (6 / 10 : ℚ), some analysis)
        | .error _ => (baseRiskScore, none)
      else (baseRiskScore, none)
    let riskScore := min afterWalk.1 100
    .ok
      { address := address, riskScore := riskScore,
        riskLevel := determineRiskLevel riskScore,
        sanctionMatches := sanctionMatches,
        transactionAnalysis := afterWalk.2,
        confidence := calculateConfidenceScore sanctionMatches afterWalk.2 }
  else .error ()

/-! ### Transaction screener (`src/services/transactionScreeningService.ts`) -/

/-- `extractInputAddresses`: unique non-empty input addresses, in order. -/
def extractInputAddresses (transaction : BitcoinTransaction) : List String :=
  dedupKeepFirst
    (((transaction.inputs.map (·.addresses)).flatten).filter fun a => ¬ a = "")

/-- `extractOutputAddresses`: unique non-empty output addresses, in order. -/
def extractOutputAddresses (transaction : BitcoinTransaction) : List String :=
  dedupKeepFirst
    (((transaction.outputs.map (·.addresses)).flatten).filter fun a => ¬ a = "")

/-- `riskLevelOfScore`: the risk bucketing inlined in
`calculateOverallRisk` (same thresholds as `determineRiskLevel`). -/
def riskLevelOfScore (score : ℤ) : RiskLevel :=
  if 76 ≤ score then .CRITICAL
  else if 51 ≤ score then .HIGH
  else if 26 ≤ score then .MEDIUM
  else .LOW

/-- The weight `max(1, |matches|) · confidence/100` given to one per-address
result by `calculateOverallRisk`. -/
def overallRiskWeight (result : ScreeningResultM) : ℚ :=
  (max 1 result.sanctionMatches.length : ℕ) * (result.confidence / 100)

/-- `calculateOverallRisk`: weighted average of the per-address risk scores
(weights as above), plus `min(25, 10 · count of HIGH/CRITICAL results)`,
rounded and capped at 100; `(0, LOW)` with no results at all. -/
def calculateOverallRisk (inputResults outputResults : List ScreeningResultM) :
    ℤ × RiskLevel :=
  let allResults := inputResults ++ outputResults
  if allResults.length = 0 then (0, .LOW)
  else
    let totalWeightedScore :=
      (allResults.map fun r => r.riskScore * overallRiskWeight r).sum
    let totalWeight := (allResults.map overallRiskWeight).sum
    let averageScore := if 0 < totalWeight then totalWeightedScore / totalWeight else 0
    let highRiskCount :=
      (allResults.filter fun r =>
        decide (r.riskLevel = .HIGH) || decide (r.riskLevel = .CRITICAL)).length
    let highRiskPenalty : ℚ := min 25 (highRiskCount * 10)
    let finalScore : ℤ := min 100 (round (averageScore + highRiskPenalty))
    (finalScore, riskLevelOfScore finalScore)

/-- `calculateTransactionConfidence`: the constant 30 with no screening
results; otherwise 60, plus 20 times the completeness ratio
(screened count over the transaction's total unique non-empty addresses, 1
when the transaction has none), plus 20 times the average per-result
confidence over 100; rounded, capped at 100. -/
def calculateTransactionConfidence
    (inputResults outputResults : List ScreeningResultM)
    (transaction : BitcoinTransaction) : ℤ :=
  let allResults := inputResults ++ outputResults
  if allResults.length = 0 then 30
  else
    let totalAddresses :=
      (extractInputAddresses transaction).length +
        (extractOutputAddresses transaction).length
    let completeness : ℚ :=
      if 0 < totalAddresses then (allResults.length : ℚ) / totalAddresses else 1
    let confidence1 : ℚ := 60 + completeness * 20
    let confidence2 : ℚ :=
      if 0 < allResults.length then
        let averageConfidence :=
          (allResults.map (·.confidence)).sum / allResults.length
        confidence1 + averageConfidence / 100 * 20
      else confidence1
    min 100 (round confidence2)

/-- Stated from the claim's words (NOT from the source), for comparison with
`calculateTransactionConfidence`: the formula
`min(100, round(60 + 20·completeness + 20·avg/100))` applied to EVERY
transaction screening, including one with zero screened addresses (where the
average, an empty sum over an empty count, reads as 0). -/
def specTransactionConfidence
    (inputResults outputResults : List ScreeningResultM)
    (transaction : BitcoinTransaction) : ℤ :=
  let allResults := inputResults ++ outputResults
  let totalAddresses :=
    (extractInputAddresses transaction).length +
      (extractOutputAddresses transaction).length
  let completeness : ℚ :=
    if 0 < totalAddresses then (allResults.length : ℚ) / totalAddresses else 1
  let averageConfidence : ℚ :=
    (allResults.map (·.confidence)).sum / allResults.length
  min 100 (round (60 + 20 * completeness + 20 * averageConfidence / 100))

/-! ### Helper lemmas -/

/-- A `foldl` preserves any predicate its step function preserves. -/
theorem foldl_preserve {α β : Type} (P : α → Prop) (f : α → β → α)
    (hf : ∀ a b, P a → P (f a b)) :
    ∀ (l : List β) (init : α), P init → P (l.foldl f init) := by
  intro l
  induction l with
  | nil => intro init h; exact h
  | cons b t ih => intro init h; exact ih (f init b) (hf init b h)

/-- The legacy regex alternative succeeds iff the string starts with `1` or
`3` followed by at least 25 base58 characters (whatever comes after). -/
theorem legacyBranchTest_iff (cs : List Char) :
    legacyBranchTest cs = true ↔
      ∃ c rest, cs = c :: rest ∧ (c = '1' ∨ c = '3') ∧ 25 ≤ rest.length ∧
        (rest.take 25).all base58Char = true := by
  cases cs with
  | nil => simp [legacyBranchTest]
  | cons c rest =>
    simp only [legacyBranchTest, Bool.and_eq_true, Bool.or_eq_true, beq_iff_eq,
      List.any_eq_true, decide_eq_true_eq, List.cons.injEq]
    constructor
    · rintro ⟨hc, m, hmmem, hmle, hall⟩
      have h25m : 25 ≤ m := (List.mem_range'_1.mp hmmem).1
      refine ⟨c, rest, ⟨rfl, rfl⟩, hc, le_trans h25m hmle, ?_⟩
      have htt : rest.take 25 = (rest.take m).take 25 := by
        rw [List.take_take, min_eq_left h25m]
      rw [htt, List.all_eq_true] at *
      intro x hx
      exact hall x (List.mem_of_mem_take hx)
    · rintro ⟨c', rest', ⟨hc', hrest'⟩, hor, hlen, hall⟩
      subst hc'
      subst hrest'
      exact ⟨hor, 25, List.mem_range'_1.mpr ⟨le_refl 25, by norm_num⟩, hlen, hall⟩

/-- The direct-match score never exceeds its cap of 80. -/
theorem calculateDirectMatchRiskScore_le (sanctionMatches : List SanctionMatch) :
    calculateDirectMatchRiskScore sanctionMatches ≤ 80 := by
  unfold calculateDirectMatchRiskScore
  split
  · norm_num
  · exact min_le_right _ _

/-! ### Claim C5 — `isValidBitcoinAddress` anchoring -/

/-- C5, counterexample: the claim says every string with trailing characters
after a valid prefix is rejected, but `isValidBitcoinAddress` accepts
`"1" ++ 25 × "A" ++ "!"` because the legacy alternative of the source regex
is not anchored at the end, while the claim's fully-anchored pattern
(`specFullPatternAddress`) rejects it. -/
theorem c5_counterexample :
    isValidBitcoinAddress "1AAAAAAAAAAAAAAAAAAAAAAAAA!" = true ∧
      specFullPatternAddress "1AAAAAAAAAAAAAAAAAAAAAAAAA!" = false := by
  decide

/-- C5, amended: `isValidBitcoinAddress s` returns true iff s starts with
`1` or `3` followed by at least 25 base58 characters — trailing characters
(even beyond 34) are unconstrained, because the legacy alternative of
`^([13][base58]{25,34})|^(bc1[a-z0-9]{39,59})$` is anchored only at the
start — or s matches the (fully anchored) Bech32 alternative entirely. -/
theorem c5_amended (s : String) :
    isValidBitcoinAddress s = true ↔
      (∃ c rest, s.toList = c :: rest ∧ (c = '1' ∨ c = '3') ∧ 25 ≤ rest.length ∧
        (rest.take 25).all base58Char = true) ∨
      bech32BranchTest s.toList = true := by
  unfold isValidBitcoinAddress
  rw [Bool.or_eq_true, legacyBranchTest_iff]

/-! ### Claim C7 — sanctions reload condition -/

/-- C7, counterexample: after a missing-source load at time 10, a second
access at time 20 — well within the 1-hour TTL and not the first access —
still attempts a reload (the early return also requires a non-empty cache),
contradicting the claim that no reload is attempted within the TTL after a
missing-source load. -/
theorem c7_counterexample :
    (loadAllSanctions ⟨[], 0⟩ 10 .missing).1.lastLoadTime = 10 ∧
      20 - (loadAllSanctions ⟨[], 0⟩ 10 .missing).1.lastLoadTime < cacheValidityMs ∧
      (loadAllSanctions (loadAllSanctions ⟨[], 0⟩ 10 .missing).1 20 .missing).2 = true := by
  decide

/-- C7, amended: a missing source still yields an empty index with
`lastLoadTime` set and no error; but a reload of the source is attempted iff
the cache is EMPTY or `now − lastLoadTime` has reached the 1-hour TTL — so
after a missing-source load (empty cache) every subsequent access attempts
the load again, not only after the TTL. -/
theorem c7_amended :
    (∀ st now src, ((loadAllSanctions st now src).2 = true ↔
        st.sanctionsCache = [] ∨ cacheValidityMs ≤ now - st.lastLoadTime)) ∧
    (∀ t now, loadAllSanctions ⟨[], t⟩ now .missing = (⟨[], now⟩, true)) := by
  constructor
  · intro st now src
    unfold loadAllSanctions
    by_cases h : now - st.lastLoadTime < cacheValidityMs ∧ 0 < st.sanctionsCache.length
    · rw [if_pos h]
      simp only [List.length_pos] at h
      constructor
      · intro hfalse; exact absurd hfalse (by simp)
      · rintro (hnil | httl)
        · exact absurd hnil h.2
        · exact absurd httl (not_le.mpr h.1)
    · rw [if_neg h]
      rcases not_and_or.mp h with hlt | hlen
      · rcases src with _ | ⟨lu, entries⟩ <;>
          simp [not_lt.mp hlt]
      · have : st.sanctionsCache = [] := by
          simpa [List.length_pos] using hlen
        rcases src with _ | ⟨lu, entries⟩ <;> simp [this]
  · intro t now
    unfold loadAllSanctions
    rw [if_neg (by rintro ⟨-, h⟩; simp at h)]

/-! ### Claim C8 — transaction confidence formula -/

/-- Transaction used for the C8 counterexample: one non-empty output
address but (after per-address screening failures) zero screening results. -/
def c8tx : BitcoinTransaction :=
  ⟨"t", 0, 0, [], [⟨["X"], 1, "s"⟩], 0, 0⟩

/-- Screening result used by the C8 witness. -/
def c8res : ScreeningResultM :=
  ⟨"a", 0, .LOW, [], none, 30⟩

/-- C8, counterexample: with zero screening results (a transaction with one
address whose screening failed), `calculateTransactionConfidence` returns
the constant 30, whereas the claim's formula yields
`min(100, round(60 + 20·(0/1) + 20·0/100)) = 60`. -/
theorem c8_counterexample :
    calculateTransactionConfidence [] [] c8tx = 30 ∧
      specTransactionConfidence [] [] c8tx = 60 := by
  constructor
  · decide
  · have hin : extractInputAddresses c8tx = [] := by decide
    have hout : extractOutputAddresses c8tx = ["X"] := by decide
    norm_num [specTransactionConfidence, hin, hout, round_eq]

/-- C8, amended: whenever at least one per-address screening result exists,
the confidence equals the claim's formula
`min(100, round(60 + 20·completeness + 20·avg/100))` with completeness 1
when the transaction has no addresses; with zero results the code instead
returns the constant 30 (not the formula's value). -/
theorem c8_amended (inputResults outputResults : List ScreeningResultM)
    (transaction : BitcoinTransaction)
    (h : (inputResults ++ outputResults).length ≠ 0) :
    calculateTransactionConfidence inputResults outputResults transaction =
      specTransactionConfidence inputResults outputResults transaction := by
  have hpos : 0 < (inputResults ++ outputResults).length := Nat.pos_of_ne_zero h
  simp only [calculateTransactionConfidence, specTransactionConfidence]
  rw [if_neg h, if_pos hpos]
  congr 1
  congr 1
  ring

/-- C8, witness for the amended theorem at one screening result. -/
theorem c8_witness :
    ([c8res] ++ []).length ≠ 0 ∧
      calculateTransactionConfidence [c8res] [] c8tx =
        specTransactionConfidence [c8res] [] c8tx :=
  ⟨by decide, c8_amended [c8res] [] c8tx (by decide)⟩

/-! ### Claim C9 — walker failure is swallowed by the address screener -/

/-- C9: for every valid address, when the walk is requested but the walker
invocation throws, screening still succeeds, the risk score is exactly the
direct-match score, and no path analysis is attached. -/
theorem c9_walker_failure_swallowed (address : String)
    (lookup : Except Unit (List SanctionEntity))
    (hv : isValidBitcoinAddress address = true) :
    ∃ r, screenAddress address true lookup (.error ()) = .ok r ∧
      r.riskScore =
        calculateDirectMatchRiskScore (findDirectSanctionMatches address lookup) ∧
      r.transactionAnalysis = none := by
  unfold screenAddress
  rw [if_pos hv]
  refine ⟨_, rfl, ?_, rfl⟩
  exact min_eq_left
    (le_trans (calculateDirectMatchRiskScore_le _) (by norm_num))

/-- C9, witness at a concrete valid address with an empty lookup result. -/
theorem c9_witness :
    isValidBitcoinAddress "1AAAAAAAAAAAAAAAAAAAAAAAAA" = true ∧
      ∃ r, screenAddress "1AAAAAAAAAAAAAAAAAAAAAAAAA" true (.ok []) (.error ()) = .ok r ∧
        r.riskScore =
          calculateDirectMatchRiskScore
            (findDirectSanctionMatches "1AAAAAAAAAAAAAAAAAAAAAAAAA" (.ok [])) ∧
        r.transactionAnalysis = none :=
  ⟨by decide, c9_walker_failure_swallowed "1AAAAAAAAAAAAAAAAAAAAAAAAA" (.ok []) (by decide)⟩

/-! ### Claim C10 — lookup failure is swallowed by the address screener -/

/-- C10: for every valid address, when the sanctions lookup itself throws,
`findDirectSanctionMatches` catches the error and yields no matches, so the
screening succeeds with an empty match list and (with the walk disabled)
risk score 0. -/
theorem c10_lookup_failure_swallowed (address : String)
    (walkOutcome : Except Unit TransactionPathAnalysis)
    (hv : isValidBitcoinAddress address = true) :
    ∃ r, screenAddress address false (.error ()) walkOutcome = .ok r ∧
      r.sanctionMatches = [] ∧ r.riskScore = 0 := by
  unfold screenAddress
  rw [if_pos hv]
  refine ⟨_, rfl, rfl, ?_⟩
  norm_num [findDirectSanctionMatches, calculateDirectMatchRiskScore]

/-- C10, witness at a concrete valid address. -/
theorem c10_witness :
    isValidBitcoinAddress "1AAAAAAAAAAAAAAAAAAAAAAAAA" = true ∧
      ∃ r, screenAddress "1AAAAAAAAAAAAAAAAAAAAAAAAA" false (.error ()) (.error ()) = .ok r ∧
        r.sanctionMatches = [] ∧ r.riskScore = 0 :=
  ⟨by decide, c10_lookup_failure_swallowed "1AAAAAAAAAAAAAAAAAAAAAAAAA" (.error ()) (by decide)⟩

/-! ### Claim C2 — one walk node with contribution 60 gives score 39 -/

/-- C2: with no direct matches and a successful walk whose analysis holds
exactly one path node of risk contribution 60 (so one sanctioned node), the
walk's propagation is `round(60·w/w) + 5 = 65` (any hop weight `w` cancels),
and the screening result has `riskScore = 0 + 0.6·65 = 39`, risk level
MEDIUM. -/
theorem c2_single_node_screening (address : String)
    (lookup : Except Unit (List SanctionEntity))
    (a : TransactionPathAnalysis) (n : TransactionPathNode)
    (hv : isValidBitcoinAddress address = true)
    (hm : findDirectSanctionMatches address lookup = [])
    (hp : a.pathNodes = [n]) (hrc : n.riskContribution = 60)
    (hf : a.sanctionedNodesFound = 1) :
    calculateRiskPropagation a = 65 ∧
    ∃ r, screenAddress address true lookup
        (.ok { a with riskPropagation := calculateRiskPropagation a }) = .ok r ∧
      r.riskScore = 39 ∧ r.riskLevel = .MEDIUM := by
  have hw : calculateRiskPropagation a = 65 := by
    unfold calculateRiskPropagation
    rw [if_neg (by rw [hp]; exact List.cons_ne_nil n [])]
    simp only [hp, hrc, hf, List.map_cons, List.map_nil, List.sum_cons,
      List.sum_nil, add_zero]
    have hwpos : (0 : ℚ) < max (1 / 10) (1 - (n.hop : ℚ) * (15 / 100)) :=
      lt_of_lt_of_le (by norm_num) (le_max_left _ _)
    rw [show ((60 : ℕ) : ℚ) = 60 by norm_num,
      mul_div_cancel_right₀ 60 (ne_of_gt hwpos)]
    norm_num [round_eq]
  refine ⟨hw, ?_⟩
  unfold screenAddress
  rw [if_pos hv]
  refine ⟨_, rfl, ?_, ?_⟩
  · dsimp only
    rw [hm, hw]
    norm_num [calculateDirectMatchRiskScore]
  · dsimp only
    rw [hm, hw]
    norm_num [calculateDirectMatchRiskScore, determineRiskLevel]

/-- Path node of the C2 witness. -/
def c2node : TransactionPathNode :=
  ⟨"X", "T", 3, 10, 0, 60⟩

/-- Path analysis of the C2 witness. -/
def c2analysis : TransactionPathAnalysis :=
  ⟨"1AAAAAAAAAAAAAAAAAAAAAAAAA", 5, 3, 1, [c2node], 0⟩

/-- C2, witness at a concrete address, lookup and analysis. -/
theorem c2_witness :
    isValidBitcoinAddress "1AAAAAAAAAAAAAAAAAAAAAAAAA" = true ∧
      (calculateRiskPropagation c2analysis = 65 ∧
        ∃ r, screenAddress "1AAAAAAAAAAAAAAAAAAAAAAAAA" true (.ok [])
            (.ok { c2analysis with riskPropagation := calculateRiskPropagation c2analysis }) = .ok r ∧
          r.riskScore = 39 ∧ r.riskLevel = .MEDIUM) :=
  ⟨by decide,
    c2_single_node_screening "1AAAAAAAAAAAAAAAAAAAAAAAAA" (.ok []) c2analysis c2node
      (by decide) rfl rfl rfl rfl⟩

/-! ### Claim C4 — overall transaction risk on one HIGH and one LOW result -/

/-- C4: whenever the per-address results of a transaction screening are (as
a multiset, in any input/output split) exactly one result with risk 75,
level HIGH, confidence 70 and one match, and one with risk 0, level LOW,
confidence 30 and no matches, the aggregation gives
`round((75·0.7 + 0·0.3)/1 + 10) = 63` and overall level HIGH. -/
theorem c4_overall_risk_example (r1 r2 : ScreeningResultM)
    (inputResults outputResults : List ScreeningResultM)
    (h1s : r1.riskScore = 75) (h1l : r1.riskLevel = .HIGH)
    (h1c : r1.confidence = 70) (h1m : r1.sanctionMatches.length = 1)
    (h2s : r2.riskScore = 0) (h2l : r2.riskLevel = .LOW)
    (h2c : r2.confidence = 30) (h2m : r2.sanctionMatches.length = 0)
    (hperm : (inputResults ++ outputResults).Perm [r1, r2]) :
    calculateOverallRisk inputResults outputResults = (63, .HIGH) := by
  have hlen : ¬ (inputResults ++ outputResults).length = 0 := by
    rw [hperm.length_eq]; simp
  have hcount :
      ((inputResults ++ outputResults).filter fun r =>
          decide (r.riskLevel = RiskLevel.HIGH) ||
            decide (r.riskLevel = RiskLevel.CRITICAL)).length = 1 := by
    rw [← List.countP_eq_length_filter, hperm.countP_eq]
    simp [List.countP_cons, List.countP_nil, h1l, h2l]
  unfold calculateOverallRisk
  rw [if_neg hlen]
  dsimp only
  rw [(hperm.map fun r => r.riskScore * overallRiskWeight r).sum_eq,
    (hperm.map overallRiskWeight).sum_eq, hcount]
  simp only [List.map_cons, List.map_nil, List.sum_cons, List.sum_nil,
    overallRiskWeight, h1s, h1c, h1m, h2s, h2c, h2m]
  norm_num [round_eq, riskLevelOfScore]

/-- Sanction match of the C4 witness. -/
def c4match : SanctionMatch :=
  ⟨"OFAC", "ENTITY ONE", "25308", .DIRECT, 100, "a1"⟩

/-- HIGH-risk per-address result of the C4 witness. -/
def c4r1 : ScreeningResultM :=
  ⟨"a1", 75, .HIGH, [c4match], none, 70⟩

/-- LOW-risk per-address result of the C4 witness. -/
def c4r2 : ScreeningResultM :=
  ⟨"a2", 0, .LOW, [], none, 30⟩

/-- C4, witness at a concrete pair of results. -/
theorem c4_witness :
    ([c4r1] ++ [c4r2]).Perm [c4r1, c4r2] ∧
      calculateOverallRisk [c4r1] [c4r2] = (63, .HIGH) :=
  ⟨List.Perm.refl _,
    c4_overall_risk_example c4r1 c4r2 [c4r1] [c4r2] rfl rfl rfl rfl rfl rfl rfl rfl
      (List.Perm.refl _)⟩

/-! ### Claim C3 — walker emission condition -/

/-- The exact condition under which the walker's per-address loop emits a
path node: the address is not yet visited AND the case-sensitive comparison
against the cached entities' address lists matches at least one entity. -/
def walkEmits (sanctions : List SanctionEntity) (visited : List String)
    (address : String) : Bool :=
  decide (¬ address ∈ visited) &&
    decide (0 < (sanctionMatchesForWalk sanctions address).length)

/-- Unrolling the per-address loop of `analyzeTransaction`: the walk state
gains one counted node per emitted address and the corresponding path
nodes, in address order; `visitedAddresses` never changes. -/
theorem walkAddressStep_foldl (sanctions : List SanctionEntity)
    (transaction : BitcoinTransaction) (hop : Nat) :
    ∀ (l : List String) (st : WalkState),
      l.foldl (walkAddressStep sanctions transaction hop) st =
        { st with
          sanctionedNodesFound := st.sanctionedNodesFound +
            (l.filter (walkEmits sanctions st.visitedAddresses)).length,
          pathNodes := st.pathNodes ++
            (l.filter (walkEmits sanctions st.visitedAddresses)).map
              (mkWalkPathNode sanctions transaction hop) } := by
  intro l
  induction l with
  | nil => intro st; simp
  | cons a t ih =>
    intro st
    rw [List.foldl_cons, ih (walkAddressStep sanctions transaction hop st a)]
    by_cases hv : a ∈ st.visitedAddresses
    · have hstep : walkAddressStep sanctions transaction hop st a = st := by
        unfold walkAddressStep; rw [if_pos hv]
      have hemit : walkEmits sanctions st.visitedAddresses a = false := by
        simp [walkEmits, hv]
      rw [hstep, List.filter_cons, if_neg (by simp [hemit])]
    · by_cases hmatch : 0 < (sanctionMatchesForWalk sanctions a).length
      · have hstep : walkAddressStep sanctions transaction hop st a =
            { st with sanctionedNodesFound := st.sanctionedNodesFound + 1,
                      pathNodes := st.pathNodes ++
                        [mkWalkPathNode sanctions transaction hop a] } := by
          unfold walkAddressStep; rw [if_neg hv, if_pos hmatch]
        have hemit : walkEmits sanctions st.visitedAddresses a = true := by
          simp [walkEmits, hv, hmatch]
        rw [hstep]
        simp only [List.filter_cons, hemit, if_pos, List.length_cons,
          List.map_cons, WalkState.mk.injEq, List.append_assoc,
          List.singleton_append, and_true, true_and]
        omega
      · have hstep : walkAddressStep sanctions transaction hop st a = st := by
          unfold walkAddressStep; rw [if_neg hv, if_neg hmatch]
        have hemit : walkEmits sanctions st.visitedAddresses a = false := by
          simp [walkEmits, hv, hmatch]
        rw [hstep, List.filter_cons, if_neg (by simp [hemit])]

/-- Characterization of `analyzeTransaction`: exactly one node is counted,
and one path node appended, for each address of the transaction on which
`walkEmits` holds — not visited, and case-sensitively present in some cached
entity's address list. -/
theorem analyzeTransaction_eq (sanctions : List SanctionEntity)
    (transaction : BitcoinTransaction) (hop : Nat) (st : WalkState) :
    analyzeTransaction sanctions transaction hop st =
      { st with
        totalNodesAnalyzed := st.totalNodesAnalyzed + 1,
        sanctionedNodesFound := st.sanctionedNodesFound +
          ((extractAddressesFromTransaction transaction).filter
            (walkEmits sanctions st.visitedAddresses)).length,
        pathNodes := st.pathNodes ++
          ((extractAddressesFromTransaction transaction).filter
            (walkEmits sanctions st.visitedAddresses)).map
            (mkWalkPathNode sanctions transaction hop) } := by
  unfold analyzeTransaction
  rw [walkAddressStep_foldl]

/-- Sanctioned entity of the C3 counterexample: its stored address is
upper-case `"ABC"`. -/
def c3entity : SanctionEntity :=
  ⟨"100", "ENTITY THREE", "OFAC", ["ABC"], [], "2024-01-01", true⟩

/-- Transaction of the C3 counterexample: pays to `"abc"` (lower case). -/
def c3tx : BitcoinTransaction :=
  ⟨"T1", 0, 0, [], [⟨["abc"], 5, "s"⟩], 0, 0⟩

/-- Indexer of the C3 counterexample. -/
def c3idx : Indexer :=
  ⟨fun a => if a = "tgt3" then some ["T1"] else some [],
   fun t => if t = "T1" then some c3tx else none⟩

/-- C3, counterexample: the walk examines the unvisited address `"abc"`;
the Sanctions Index lookup `findSanctionsByAddress` — the case-insensitive
compare the claim describes — matches one entity (stored as `"ABC"`), yet
the walk emits NO path node and counts NO sanctioned node, because
`analyzeTransaction` compares with a case-sensitive
`entity.addresses.includes(address)` instead of the lowercased compare. -/
theorem c3_counterexample :
    ((analyzeTransactionPath c3idx [c3entity] "tgt3" 1).map fun a =>
        (a.sanctionedNodesFound, a.pathNodes.length)) = some (0, 0) ∧
      (findSanctionsByAddress [c3entity] "abc").length = 1 := by
  constructor
  · decide
  · decide

/-- C3, amended: during a walk, for every examined address not already
visited, a path node is emitted (and `sanctionedNodesFound` incremented) iff
the walker's own sanctions comparison matches one or more entities, and that
comparison is CASE-SENSITIVE — exact membership of the address in a cached
entity's stored address list (`walkEmits`), not the lowercased compare of
`findSanctionsByAddress`. -/
theorem c3_amended (sanctions : List SanctionEntity)
    (transaction : BitcoinTransaction) (hop : Nat) (st : WalkState) :
    analyzeTransaction sanctions transaction hop st =
      { st with
        totalNodesAnalyzed := st.totalNodesAnalyzed + 1,
        sanctionedNodesFound := st.sanctionedNodesFound +
          ((extractAddressesFromTransaction transaction).filter
            (walkEmits sanctions st.visitedAddresses)).length,
        pathNodes := st.pathNodes ++
          ((extractAddressesFromTransaction transaction).filter
            (walkEmits sanctions st.visitedAddresses)).map
            (mkWalkPathNode sanctions transaction hop) } :=
  analyzeTransaction_eq sanctions transaction hop st

/-! ### Claim C1 — `totalNodesAnalyzed` versus `sanctionedNodesFound` -/

/-- After `analyzeTransaction`, at least one node has been counted. -/
theorem analyzeTransaction_total_pos (sanctions : List SanctionEntity)
    (transaction : BitcoinTransaction) (hop : Nat) (st : WalkState) :
    0 < (analyzeTransaction sanctions transaction hop st).totalNodesAnalyzed := by
  rw [analyzeTransaction_eq]
  exact Nat.succ_pos _

/-- The hop recursion preserves the invariant: either no sanctioned node
has been found, or at least one transaction has been analyzed. -/
theorem walkInv_analyzeHop (idx : Indexer) (sanctions : List SanctionEntity) :
    ∀ (fuel : Nat) (transactionIds : List String) (currentHop maxHops : Nat)
      (st : WalkState),
      (st.sanctionedNodesFound = 0 ∨ 0 < st.totalNodesAnalyzed) →
      ((analyzeHop idx sanctions fuel transactionIds currentHop maxHops st).sanctionedNodesFound = 0 ∨
        0 < (analyzeHop idx sanctions fuel transactionIds currentHop maxHops st).totalNodesAnalyzed) := by
  intro fuel
  induction fuel with
  | zero =>
    intro tids ch mh st h
    simpa [analyzeHop] using h
  | succ fuel ih =>
    intro tids ch mh st h
    rw [analyzeHop]
    split
    · exact h
    · dsimp only
      refine foldl_preserve
        (fun s : WalkState => s.sanctionedNodesFound = 0 ∨ 0 < s.totalNodesAnalyzed) _ ?_ _ _ h
      intro stb batch hstb
      dsimp only
      refine foldl_preserve
        (fun s : WalkState => s.sanctionedNodesFound = 0 ∨ 0 < s.totalNodesAnalyzed) _ ?_ _ _ hstb
      intro stt transaction hstt
      dsimp only
      split
      · refine foldl_preserve
          (fun s : WalkState => s.sanctionedNodesFound = 0 ∨ 0 < s.totalNodesAnalyzed) _ ?_ _ _
          (Or.inr (analyzeTransaction_total_pos sanctions transaction ch stt))
        intro sta nextAddress hsta
        dsimp only
        split
        · exact hsta
        · exact ih _ _ _ _ hsta
      · exact Or.inr (analyzeTransaction_total_pos sanctions transaction ch stt)

/-- Transaction of the C1 counterexample: pays to the two sanctioned
addresses `"Xaddr"` and `"Yaddr"`. -/
def c1tx : BitcoinTransaction :=
  ⟨"T1", 800000, 1700000000, [], [⟨["Xaddr"], 5, "s"⟩, ⟨["Yaddr"], 7, "s"⟩], 10, 200⟩

/-- Indexer of the C1 counterexample. -/
def c1idx : Indexer :=
  ⟨fun a => if a = "tgt1" then some ["T1"] else some [],
   fun t => if t = "T1" then some c1tx else none⟩

/-- Sanctions of the C1 counterexample: one entity carrying both paid-to
addresses. -/
def c1sanctions : List SanctionEntity :=
  [⟨"9000", "ENTITY ONE", "OFAC", ["Xaddr", "Yaddr"], [], "2024-01-01", true⟩]

/-- C1, counterexample: a walk in which ONE fetched transaction carries TWO
sanctioned addresses ends with `totalNodesAnalyzed = 1 <
sanctionedNodesFound = 2` — `totalNodesAnalyzed` counts fetched
transactions while `sanctionedNodesFound` counts sanctioned addresses, and
one transaction may contain several. -/
theorem c1_counterexample :
    ∃ A, analyzeTransactionPath c1idx c1sanctions "tgt1" 1 = some A ∧
      A.totalNodesAnalyzed < A.sanctionedNodesFound := by
  have h : ((analyzeTransactionPath c1idx c1sanctions "tgt1" 1).map fun a =>
      (a.totalNodesAnalyzed, a.sanctionedNodesFound)) = some (1, 2) := by decide
  rcases Option.map_eq_some'.mp h with ⟨A, hA, hfa⟩
  refine ⟨A, hA, ?_⟩
  have h1 : A.totalNodesAnalyzed = 1 := congrArg Prod.fst hfa
  have h2 : A.sanctionedNodesFound = 2 := congrArg Prod.snd hfa
  omega

/-- C1, amended: for every completed walk, `totalNodesAnalyzed` need not
dominate `sanctionedNodesFound` (one fetched transaction can contain
several sanctioned addresses); what holds is that any walk that found a
sanctioned node analyzed at least one transaction:
`sanctionedNodesFound > 0 → totalNodesAnalyzed > 0`. -/
theorem c1_amended (idx : Indexer) (sanctions : List SanctionEntity)
    (targetAddress : String) (maxHops : Nat) (A : TransactionPathAnalysis)
    (hA : analyzeTransactionPath idx sanctions targetAddress maxHops = some A)
    (hfound : 0 < A.sanctionedNodesFound) :
    0 < A.totalNodesAnalyzed := by
  unfold analyzeTransactionPath at hA
  cases hidx : idx.addressTxs targetAddress with
  | none => rw [hidx] at hA; cases hA
  | some txs =>
    rw [hidx] at hA
    dsimp only at hA
    injection hA with hA
    rcases walkInv_analyzeHop idx sanctions maxHops (txs.take 25) 0 maxHops
        ⟨0, 0, [], [targetAddress], []⟩ (Or.inl rfl) with h0 | hpos
    · subst hA
      have hf : 0 <
          (analyzeHop idx sanctions maxHops (txs.take 25) 0 maxHops
            ⟨0, 0, [], [targetAddress], []⟩).sanctionedNodesFound := hfound
      omega
    · subst hA
      exact hpos

/-- Transaction of the C1 witness walk: pays to one sanctioned address. -/
def c1wtx : BitcoinTransaction :=
  ⟨"T2", 0, 0, [], [⟨["Waddr"], 5, "s"⟩], 0, 0⟩

/-- Indexer of the C1 witness walk. -/
def c1widx : Indexer :=
  ⟨fun a => if a = "wtgt" then some ["T2"] else some [],
   fun t => if t = "T2" then some c1wtx else none⟩

/-- Sanctions of the C1 witness walk. -/
def c1wsanctions : List SanctionEntity :=
  [⟨"9001", "ENTITY TWO", "OFAC", ["Waddr"], [], "2024-01-01", true⟩]

/-- The completed C1 witness walk. -/
def c1wA : TransactionPathAnalysis :=
  (analyzeTransactionPath c1widx c1wsanctions "wtgt" 1).getD default

/-- C1, witness for the amended theorem on a concrete completed walk that
found a sanctioned node. -/
theorem c1_witness :
    0 < c1wA.sanctionedNodesFound ∧ 0 < c1wA.totalNodesAnalyzed :=
  ⟨by decide, c1_amended c1widx c1wsanctions "wtgt" 1 c1wA rfl (by decide)⟩

/-! ### Claim C6 — consolidation, the active filter and row order -/

/-- One `upsertOFACEntry` step keeps every accumulated entity: same id, same
active flag, addresses only ever extended. -/
theorem upsert_mono (lastUpdated : String) (acc : List SanctionEntity)
    (entry : OFACCryptoEntry) (ent0 : SanctionEntity) (h0 : ent0 ∈ acc) :
    ∃ ent' ∈ upsertOFACEntry lastUpdated acc entry,
      ent'.entityId = ent0.entityId ∧ ent'.isActive = ent0.isActive ∧
        ∀ a ∈ ent0.addresses, a ∈ ent'.addresses := by
  unfold upsertOFACEntry
  split
  · refine ⟨_, List.mem_map_of_mem _ h0, ?_⟩
    dsimp only
    split
    · exact ⟨rfl, rfl, fun a ha => List.mem_append_left _ ha⟩
    · exact ⟨rfl, rfl, fun a ha => ha⟩
  · exact ⟨ent0, List.mem_append_left _ h0, rfl, rfl, fun a ha => ha⟩

/-- After one `upsertOFACEntry` step, some entity carries the new row's id
and address. -/
theorem upsert_covers (lastUpdated : String) (acc : List SanctionEntity)
    (entry : OFACCryptoEntry) :
    ∃ ent' ∈ upsertOFACEntry lastUpdated acc entry,
      ent'.entityId = entry.entityId ∧ entry.address ∈ ent'.addresses := by
  unfold upsertOFACEntry
  split
  · rename_i hany
    rw [List.any_eq_true] at hany
    obtain ⟨ent0, h0mem, h0id⟩ := hany
    rw [decide_eq_true_eq] at h0id
    refine ⟨_, List.mem_map_of_mem _ h0mem, ?_⟩
    dsimp only
    split
    · exact ⟨h0id, List.mem_append_right _ (List.mem_singleton.mpr rfl)⟩
    · rename_i hcond
      have haddr : entry.address ∈ ent0.addresses := by
        by_contra hmem
        exact hcond ⟨h0id, hmem⟩
      exact ⟨h0id, haddr⟩
  · exact ⟨_, List.mem_append_right _ (List.mem_singleton.mpr rfl), rfl,
      List.mem_singleton.mpr rfl⟩

/-- The consolidation fold keeps every accumulated entity: same id, same
active flag, addresses only ever extended. -/
theorem foldl_upsert_mono (lastUpdated : String) :
    ∀ (entries : List OFACCryptoEntry) (acc : List SanctionEntity)
      (ent0 : SanctionEntity), ent0 ∈ acc →
      ∃ ent ∈ entries.foldl (upsertOFACEntry lastUpdated) acc,
        ent.entityId = ent0.entityId ∧ ent.isActive = ent0.isActive ∧
          ∀ a ∈ ent0.addresses, a ∈ ent.addresses := by
  intro entries
  induction entries with
  | nil => intro acc ent0 h0; exact ⟨ent0, h0, rfl, rfl, fun a ha => ha⟩
  | cons e t ih =>
    intro acc ent0 h0
    obtain ⟨ent1, h1mem, h1id, h1act, h1sub⟩ := upsert_mono lastUpdated acc e ent0 h0
    obtain ⟨ent, hmem, hid, hact, hsub⟩ :=
      ih (upsertOFACEntry lastUpdated acc e) ent1 h1mem
    exact ⟨ent, hmem, hid.trans h1id, hact.trans h1act,
      fun a ha => hsub a (h1sub a ha)⟩

/-- Completeness of the consolidation: every source row's address ends up in
the consolidated entity of that row's id. -/
theorem foldl_upsert_covers (lastUpdated : String) :
    ∀ (entries : List OFACCryptoEntry) (acc : List SanctionEntity)
      (r : OFACCryptoEntry), r ∈ entries →
      ∃ ent ∈ entries.foldl (upsertOFACEntry lastUpdated) acc,
        ent.entityId = r.entityId ∧ r.address ∈ ent.addresses := by
  intro entries
  induction entries with
  | nil => intro acc r hr; cases hr
  | cons e t ih =>
    intro acc r hr
    rcases List.mem_cons.mp hr with hre | hrt
    · subst hre
      obtain ⟨ent1, h1mem, h1id, h1addr⟩ := upsert_covers lastUpdated acc r
      obtain ⟨ent, hmem, hid, -, hsub⟩ := foldl_upsert_mono lastUpdated t _ ent1 h1mem
      exact ⟨ent, hmem, hid.trans h1id, hsub _ h1addr⟩
    · exact ih _ r hrt

/-- Soundness of one step for addresses: an address of an upserted entity
either was already accumulated under the same id, or is the new row's
address under the new row's id. -/
theorem upsert_address_src (lastUpdated : String) (acc : List SanctionEntity)
    (entry : OFACCryptoEntry) (ent' : SanctionEntity)
    (h : ent' ∈ upsertOFACEntry lastUpdated acc entry) :
    ∀ a ∈ ent'.addresses,
      (∃ ent0 ∈ acc, ent0.entityId = ent'.entityId ∧ a ∈ ent0.addresses) ∨
        (entry.entityId = ent'.entityId ∧ entry.address = a) := by
  intro a ha
  unfold upsertOFACEntry at h
  split at h
  · obtain ⟨ent0, h0mem, hf⟩ := List.mem_map.mp h
    by_cases hcond : ent0.entityId = entry.entityId ∧ ¬ entry.address ∈ ent0.addresses
    · rw [if_pos hcond] at hf
      subst hf
      rcases List.mem_append.mp ha with hold | hnew
      · exact Or.inl ⟨ent0, h0mem, rfl, hold⟩
      · exact Or.inr ⟨hcond.1.symm, (List.mem_singleton.mp hnew).symm⟩
    · rw [if_neg hcond] at hf
      subst hf
      exact Or.inl ⟨ent0, h0mem, rfl, ha⟩
  · rcases List.mem_append.mp h with hacc | hnew
    · exact Or.inl ⟨ent', hacc, rfl, ha⟩
    · have hent : ent' = _ := List.mem_singleton.mp hnew
      subst hent
      exact Or.inr ⟨rfl, (List.mem_singleton.mp ha).symm⟩

/-- Provenance of one step for id and active flag: an upserted entity either
was already accumulated (same id, same flag), or is newly created from the
row — whose id then occurs nowhere in the accumulator. -/
theorem upsert_id_src (lastUpdated : String) (acc : List SanctionEntity)
    (entry : OFACCryptoEntry) (ent' : SanctionEntity)
    (h : ent' ∈ upsertOFACEntry lastUpdated acc entry) :
    (∃ ent0 ∈ acc, ent0.entityId = ent'.entityId ∧ ent'.isActive = ent0.isActive) ∨
      ((∀ ent0 ∈ acc, ¬ ent0.entityId = entry.entityId) ∧
        ent'.entityId = entry.entityId ∧ ent'.isActive = entry.isActive) := by
  unfold upsertOFACEntry at h
  split at h
  · obtain ⟨ent0, h0mem, hf⟩ := List.mem_map.mp h
    by_cases hcond : ent0.entityId = entry.entityId ∧ ¬ entry.address ∈ ent0.addresses
    · rw [if_pos hcond] at hf
      subst hf
      exact Or.inl ⟨ent0, h0mem, rfl, rfl⟩
    · rw [if_neg hcond] at hf
      subst hf
      exact Or.inl ⟨ent0, h0mem, rfl, rfl⟩
  · rename_i hany
    rcases List.mem_append.mp h with hacc | hnew
    · exact Or.inl ⟨ent', hacc, rfl, rfl⟩
    · have hent : ent' = _ := List.mem_singleton.mp hnew
      subst hent
      refine Or.inr ⟨?_, rfl, rfl⟩
      intro ent0 h0 hid
      exact hany (by rw [List.any_eq_true]; exact ⟨ent0, h0, decide_eq_true hid⟩)

/-- Soundness of the consolidation for addresses: every address of a
consolidated entity comes from a source row sharing the entity's id. -/
theorem foldl_upsert_address_src (lastUpdated : String) :
    ∀ (entries : List OFACCryptoEntry) (acc : List SanctionEntity)
      (ent : SanctionEntity), ent ∈ entries.foldl (upsertOFACEntry lastUpdated) acc →
      ∀ a ∈ ent.addresses,
        (∃ ent0 ∈ acc, ent0.entityId = ent.entityId ∧ a ∈ ent0.addresses) ∨
          (∃ r ∈ entries, r.entityId = ent.entityId ∧ r.address = a) := by
  intro entries
  induction entries with
  | nil => intro acc ent h a ha; exact Or.inl ⟨ent, h, rfl, ha⟩
  | cons e t ih =>
    intro acc ent h a ha
    rcases ih _ ent h a ha with ⟨ent0, h0mem, h0id, h0a⟩ | ⟨r, hr, hrid, hra⟩
    · rcases upsert_address_src lastUpdated acc e ent0 h0mem a h0a with
        ⟨ent00, h00, h00id, h00a⟩ | ⟨heid, hea⟩
      · exact Or.inl ⟨ent00, h00, h00id.trans h0id, h00a⟩
      · exact Or.inr ⟨e, List.mem_cons_self e t, heid.trans h0id, hea⟩
    · exact Or.inr ⟨r, List.mem_cons_of_mem _ hr, hrid, hra⟩

/-- Provenance of the consolidation for the active flag: with an empty
accumulator, a consolidated entity's `isActive` is exactly the flag of the
FIRST source row carrying its id. -/
theorem foldl_upsert_id_src (lastUpdated : String) :
    ∀ (entries : List OFACCryptoEntry) (acc : List SanctionEntity)
      (ent : SanctionEntity), ent ∈ entries.foldl (upsertOFACEntry lastUpdated) acc →
      (∃ ent0 ∈ acc, ent0.entityId = ent.entityId ∧ ent.isActive = ent0.isActive) ∨
        ((∀ ent0 ∈ acc, ¬ ent0.entityId = ent.entityId) ∧
          ∃ f, entries.find? (fun r => decide (r.entityId = ent.entityId)) = some f ∧
            ent.isActive = f.isActive) := by
  intro entries
  induction entries with
  | nil =>
    intro acc ent h
    exact Or.inl ⟨ent, h, rfl, rfl⟩
  | cons e t ih =>
    intro acc ent h
    rcases ih _ ent h with ⟨ent0, h0mem, h0id, h0act⟩ | ⟨hnone, f, hfind, hact⟩
    · rcases upsert_id_src lastUpdated acc e ent0 h0mem with
        ⟨ent00, h00, h00id, h00act⟩ | ⟨hnoacc, h0eid, h0eact⟩
      · exact Or.inl ⟨ent00, h00, h00id.trans h0id, h0act.trans h00act⟩
      · right
        have heid : e.entityId = ent.entityId := h0eid.symm.trans h0id
        refine ⟨?_, e, ?_, ?_⟩
        · intro ent1 h1 hid1
          exact hnoacc ent1 h1 (hid1.trans heid.symm)
        · exact List.find?_cons_of_pos _ (decide_eq_true heid)
        · exact h0act.trans h0eact
    · right
      have hnacc : ∀ ent0 ∈ acc, ¬ ent0.entityId = ent.entityId := by
        intro ent0 h0 hid
        obtain ⟨ent1, h1mem, h1id, -, -⟩ := upsert_mono lastUpdated acc e ent0 h0
        exact hnone ent1 h1mem (h1id.trans hid)
      have hene : ¬ e.entityId = ent.entityId := by
        intro hid
        obtain ⟨ent1, h1mem, h1id, -⟩ := upsert_covers lastUpdated acc e
        exact hnone ent1 h1mem (h1id.trans hid)
      refine ⟨hnacc, f, ?_, hact⟩
      rw [List.find?_cons_of_neg _ (by simp [hene])]
      exact hfind

/-- Active first row of the C6 counterexample's entity group. -/
def c6rowA : OFACCryptoEntry :=
  ⟨"E1", "NAME SIX", "individual", "CYBER2", "XBT", "addrA", "", true⟩

/-- Inactive second row of the C6 counterexample's entity group. -/
def c6rowB : OFACCryptoEntry :=
  ⟨"E1", "NAME SIX", "individual", "CYBER2", "XBT", "addrB", "", false⟩

/-- C6, counterexample: the address `"addrB"` is carried only by a row with
`isActive = false`, yet `findSanctionsByAddress` returns its entity —
consolidation unions the addresses of ALL rows of an entity id first, and
the `isActive` filter then looks only at the flag of the FIRST row, so an
inactive row's address is indexed when the group's first row is active. -/
theorem c6_counterexample :
    c6rowB.isActive = false ∧
      (findSanctionsByAddress (loadActiveSanctions "2024" [c6rowA, c6rowB])
        "addrB").length = 1 := by
  constructor
  · rfl
  · decide

/-- C6, amended: rows sharing an entity id are consolidated into one entity
with the union of ALL their addresses (active or not), and the consolidated
entity's `isActive` is the flag of the FIRST row of the group; an address is
returned by `findByAddress` iff some row carries it (case-insensitively)
and the first row of that row's entity group is active. -/
theorem c6_amended (lastUpdated : String) (entries : List OFACCryptoEntry)
    (address : String) :
    findSanctionsByAddress (loadActiveSanctions lastUpdated entries) address ≠ [] ↔
      ∃ r ∈ entries, lowerString r.address = lowerString address ∧
        ∃ f, entries.find? (fun e => decide (e.entityId = r.entityId)) = some f ∧
          f.isActive = true := by
  constructor
  · intro h
    obtain ⟨ent, hent⟩ := List.exists_mem_of_ne_nil _ h
    obtain ⟨hload, hanyaddr⟩ := List.mem_filter.mp hent
    obtain ⟨htrans, hactive⟩ := List.mem_filter.mp hload
    obtain ⟨addr, haddrmem, haddrlow⟩ := List.any_eq_true.mp hanyaddr
    rw [beq_iff_eq] at haddrlow
    rcases foldl_upsert_address_src lastUpdated entries [] ent htrans addr haddrmem with
      ⟨ent0, h0mem, -, -⟩ | ⟨r, hr, hrid, hra⟩
    · cases h0mem
    rcases foldl_upsert_id_src lastUpdated entries [] ent htrans with
      ⟨ent0, h0mem, -, -⟩ | ⟨-, f, hfind, hfact⟩
    · cases h0mem
    refine ⟨r, hr, by rw [hra]; exact haddrlow, f, ?_, ?_⟩
    · rw [hrid]
      exact hfind
    · rw [← hfact]
      exact hactive
  · rintro ⟨r, hr, hlow, f, hfind, hfact⟩
    obtain ⟨ent, hentmem, hentid, hraddr⟩ :=
      foldl_upsert_covers lastUpdated entries [] r hr
    rcases foldl_upsert_id_src lastUpdated entries [] ent hentmem with
      ⟨ent0, h0mem, -, -⟩ | ⟨-, f', hfind', hact'⟩
    · cases h0mem
    rw [hentid] at hfind'
    rw [hfind] at hfind'
    have hff : f' = f := (Option.some.inj hfind').symm
    subst hff
    have hentactive : ent.isActive = true := hact'.trans hfact
    apply List.ne_nil_of_mem
      (a := ent)
    apply List.mem_filter.mpr
    refine ⟨List.mem_filter.mpr ⟨hentmem, ?_⟩, ?_⟩
    · exact hentactive
    · rw [List.any_eq_true]
      exact ⟨r.address, hraddr, by rw [beq_iff_eq, hlow]⟩
